import Mathlib

/-!
Verification of the AIOX message-dispatch and orchestration core.

This file gives a shallow embedding of the Go sources of the AIOX
platform (worker pool, dispatcher, orchestrator, long-term memory
search, quota engine, worker streaming server) and proves or refutes
the behavioural claims stated about them.

Modelling conventions:
  * Go `int`/`int32` counters are modelled as `ℤ` (no overflow is
    reachable for the quantities involved: they are bounded by
    registration-time values).
  * `float64` load ratios are modelled as `ℚ`; for the int32-sized
    numerators and denominators that occur the comparisons performed
    by the code are exact.
  * UUID values are modelled as `String`; `uuid.Nil` is the zero UUID
    string. Fresh UUIDs (`uuid.New()`) are taken as parameters.
  * Go maps keyed by strings are modelled as association lists whose
    key uniqueness is maintained by the operations that build them.
-/

namespace Aiox

/-- The zero UUID, `uuid.Nil` in Go. -/
def uuidNil : String := "00000000-0000-0000-0000-000000000000"

/-! ## Worker pool (internal/worker/repository.go) -/

/-- A Python worker connected via the gRPC bidirectional stream
(`ConnectedWorker` in internal/worker/repository.go). `MaxConcurrent`
and `ActiveTasks` are `int32` in Go. The stream handle is not part of
the model. -/
structure ConnectedWorker where
  workerID : String
  maxConcurrent : ℤ
  supportedProviders : List String
  activeTasks : ℤ
deriving DecidableEq, Repr

/-- LoadFraction (repository.go, lines 139-147): `ActiveTasks / MaxConcurrent`,
or `1.0` when `MaxConcurrent ≤ 0`. -/
def ConnectedWorker.loadFraction (w : ConnectedWorker) : ℚ :=
  if w.maxConcurrent ≤ 0 then 1 else (w.activeTasks : ℚ) / (w.maxConcurrent : ℚ)

/-- IncrementActive (repository.go, lines 123-128). -/
def ConnectedWorker.incrementActive (w : ConnectedWorker) : ConnectedWorker :=
  { w with activeTasks := w.activeTasks + 1 }

/-- DecrementActive (repository.go, lines 130-137): guarded so the counter
never goes below zero. -/
def ConnectedWorker.decrementActive (w : ConnectedWorker) : ConnectedWorker :=
  if 0 < w.activeTasks then { w with activeTasks := w.activeTasks - 1 } else w

/-- The pool's worker map (`Pool.workers`), modelled as a list of entries
whose `workerID` keys are kept unique by `Pool.register`. -/
abbrev Pool := List ConnectedWorker

/-- Pool.Get (repository.go, lines 209-214): lookup by worker id. -/
def Pool.get (p : Pool) (id : String) : Option ConnectedWorker :=
  p.find? (fun w => w.workerID == id)

/-- Pool.Register (repository.go, lines 162-171): adds the worker unless one
with the same id is already connected; reports whether it was added. -/
def Pool.register (p : Pool) (w : ConnectedWorker) : Pool × Bool :=
  if (Pool.get p w.workerID).isSome then (p, false) else (p ++ [w], true)

/-- Pool.Unregister (repository.go, lines 173-178): removes the entry with
the given id. -/
def Pool.unregister (p : Pool) (id : String) : Pool :=
  p.filter (fun w => w.workerID != id)

/-- Mutation of the pool entry with the given id. Go code obtains a pointer
via the map and mutates it in place; with unique keys this is the same as
mapping `f` over the matching entry. -/
def Pool.updateWorker (p : Pool) (id : String) (f : ConnectedWorker → ConnectedWorker) : Pool :=
  p.map (fun w => if w.workerID == id then f w else w)

/-- The loop body of Pool.SelectWorker (repository.go, lines 182-200):
iterates over the connected workers keeping the best candidate seen so far.
`bestLoad` starts at `2.0` (greater than any candidate's ratio, marking
"none found yet"); workers whose load ratio is at least `1.0` are skipped. -/
def selectWorkerAux : Pool → Option ConnectedWorker → ℚ → Option ConnectedWorker
  | [], best, _ => best
  | w :: ws, best, bestLoad =>
    if 1 ≤ w.loadFraction then selectWorkerAux ws best bestLoad
    else if w.loadFraction < bestLoad then selectWorkerAux ws (some w) w.loadFraction
    else selectWorkerAux ws best bestLoad

/-- Pool.SelectWorker (repository.go, lines 180-200). -/
def Pool.selectWorker (p : Pool) : Option ConnectedWorker :=
  selectWorkerAux p none 2

lemma selectWorkerAux_eq_none {l : Pool} :
    ∀ {best : Option ConnectedWorker} {bestLoad : ℚ},
      (best = none → 1 < bestLoad) →
      selectWorkerAux l best bestLoad = none →
      best = none ∧ ∀ w ∈ l, 1 ≤ w.loadFraction := by
  induction l with
  | nil =>
    intro best bestLoad _ h
    exact ⟨h, by simp⟩
  | cons w ws ih =>
    intro best bestLoad hnone h
    simp only [selectWorkerAux] at h
    by_cases h1 : 1 ≤ w.loadFraction
    · rw [if_pos h1] at h
      obtain ⟨hb, hall⟩ := ih hnone h
      refine ⟨hb, ?_⟩
      intro w' hw'
      rcases List.mem_cons.mp hw' with h' | h'
      · simpa [h'] using h1
      · exact hall w' h'
    · rw [if_neg h1] at h
      push_neg at h1
      by_cases h2 : w.loadFraction < bestLoad
      · rw [if_pos h2] at h
        obtain ⟨hb, _⟩ := ih (by intro hc; cases hc) h
        exact absurd hb (by simp)
      · rw [if_neg h2] at h
        push_neg at h2
        obtain ⟨hb, _⟩ := ih hnone h
        exact absurd (lt_trans (lt_of_lt_of_le (hnone hb) h2) h1) (lt_irrefl 1)

lemma selectWorkerAux_none_of_all {l : Pool} :
    ∀ {bestLoad : ℚ}, (∀ w ∈ l, 1 ≤ w.loadFraction) →
      selectWorkerAux l none bestLoad = none := by
  induction l with
  | nil => intro bestLoad _; rfl
  | cons w ws ih =>
    intro bestLoad hall
    have h1 : 1 ≤ w.loadFraction := hall w (List.mem_cons_self w ws)
    simp only [selectWorkerAux, if_pos h1]
    exact ih (fun w' hw' => hall w' (List.mem_cons_of_mem w hw'))

lemma selectWorkerAux_eq_some {l : Pool} :
    ∀ {best : Option ConnectedWorker} {bestLoad : ℚ} {w : ConnectedWorker},
      (∀ b, best = some b → b.loadFraction = bestLoad ∧ b.loadFraction < 1) →
      (best = none → 1 < bestLoad) →
      selectWorkerAux l best bestLoad = some w →
      (w ∈ l ∨ best = some w) ∧ w.loadFraction < 1 ∧
        (∀ w' ∈ l, w.loadFraction ≤ w'.loadFraction) ∧
        (∀ b, best = some b → w.loadFraction ≤ b.loadFraction) := by
  induction l with
  | nil =>
    intro best bestLoad w hbest _ h
    obtain ⟨heq, hlt⟩ := hbest w h
    exact ⟨Or.inr h, hlt, by simp, fun b hb => by
      obtain ⟨heqb, _⟩ := hbest b hb
      rw [heq, heqb]⟩
  | cons w₀ ws ih =>
    intro best bestLoad w hbest hnone h
    simp only [selectWorkerAux] at h
    by_cases h1 : 1 ≤ w₀.loadFraction
    · rw [if_pos h1] at h
      obtain ⟨hmem, hlt, hmin, hbc⟩ := ih hbest hnone h
      refine ⟨?_, hlt, ?_, hbc⟩
      · rcases hmem with h' | h'
        · exact Or.inl (List.mem_cons_of_mem w₀ h')
        · exact Or.inr h'
      · intro w' hw'
        rcases List.mem_cons.mp hw' with h' | h'
        · exact h' ▸ le_of_lt (lt_of_lt_of_le hlt h1)
        · exact hmin w' h'
    · rw [if_neg h1] at h
      push_neg at h1
      by_cases h2 : w₀.loadFraction < bestLoad
      · rw [if_pos h2] at h
        have hbest' : ∀ b, some w₀ = some b →
            b.loadFraction = w₀.loadFraction ∧ b.loadFraction < 1 := by
          intro b hb
          cases hb
          exact ⟨rfl, h1⟩
        obtain ⟨hmem, hlt, hmin, hbc⟩ := ih hbest' (by intro hc; cases hc) h
        have hww₀ : w.loadFraction ≤ w₀.loadFraction := hbc w₀ rfl
        refine ⟨?_, hlt, ?_, ?_⟩
        · rcases hmem with h' | h'
          · exact Or.inl (List.mem_cons_of_mem w₀ h')
          · cases h'
            exact Or.inl (List.mem_cons_self w₀ ws)
        · intro w' hw'
          rcases List.mem_cons.mp hw' with h' | h'
          · exact h' ▸ hww₀
          · exact hmin w' h'
        · intro b hb
          obtain ⟨heqb, _⟩ := hbest b hb
          exact le_of_lt (lt_of_le_of_lt hww₀ (heqb ▸ h2))
      · rw [if_neg h2] at h
        push_neg at h2
        obtain ⟨hmem, hlt, hmin, hbc⟩ := ih hbest hnone h
        have hww₀ : w.loadFraction ≤ w₀.loadFraction := by
          rcases hmem' : (best : Option ConnectedWorker) with _ | b
          · have := hnone hmem'
            exact le_of_lt (lt_of_lt_of_le hlt (le_trans (le_of_lt this) h2))
          · obtain ⟨heqb, _⟩ := hbest b hmem'
            exact le_trans (hbc b hmem') (heqb ▸ h2)
        refine ⟨?_, hlt, ?_, hbc⟩
        · rcases hmem with h' | h'
          · exact Or.inl (List.mem_cons_of_mem w₀ h')
          · exact Or.inr h'
        · intro w' hw'
          rcases List.mem_cons.mp hw' with h' | h'
          · exact h' ▸ hww₀
          · exact hmin w' h'

lemma selectWorker_mem_and_min {p : Pool} {w : ConnectedWorker}
    (h : Pool.selectWorker p = some w) :
    w ∈ p ∧ w.loadFraction < 1 ∧ ∀ w' ∈ p, w.loadFraction ≤ w'.loadFraction := by
  obtain ⟨hmem, hlt, hmin, _⟩ :=
    selectWorkerAux_eq_some (l := p) (by intro b hb; cases hb)
      (by intro _; norm_num) h
  rcases hmem with h' | h'
  · exact ⟨h', hlt, hmin⟩
  · cases h'

lemma loadFraction_lt_one_pos_max {w : ConnectedWorker}
    (h : w.loadFraction < 1) : 0 < w.maxConcurrent := by
  by_contra hc
  push_neg at hc
  rw [ConnectedWorker.loadFraction, if_pos hc] at h
  exact absurd h (lt_irrefl 1)

/-- C4: `select_worker()` returns a connected worker that minimizes
`active_tasks / max_concurrent` over all connected workers, skipping every
worker whose load ratio is at least `1.0`; a worker with
`max_concurrent ≤ 0` has ratio treated as `1.0` and is never selected; and
it returns none exactly when no connected worker has a ratio below `1.0`. -/
theorem selectWorker_spec (p : Pool) :
    (Pool.selectWorker p = none ↔ ∀ w ∈ p, 1 ≤ w.loadFraction) ∧
    (∀ w ∈ p, w.maxConcurrent ≤ 0 → w.loadFraction = 1) ∧
    (∀ w, Pool.selectWorker p = some w →
      w ∈ p ∧ w.loadFraction < 1 ∧ 0 < w.maxConcurrent ∧
        ∀ w' ∈ p, w.loadFraction ≤ w'.loadFraction) := by
  refine ⟨⟨fun h => (selectWorkerAux_eq_none (by intro _; norm_num) h).2,
      fun h => selectWorkerAux_none_of_all h⟩, ?_, ?_⟩
  · intro w _ hmax
    rw [ConnectedWorker.loadFraction, if_pos hmax]
  · intro w h
    obtain ⟨hmem, hlt, hmin⟩ := selectWorker_mem_and_min h
    exact ⟨hmem, hlt, loadFraction_lt_one_pos_max hlt, hmin⟩

/-- A two-worker pool used to witness the selection theorem: worker w1 at
load 1/2, worker w2 at load 1/4. -/
def witnessPool : Pool :=
  [⟨"w1", 2, [], 1⟩, ⟨"w2", 4, [], 1⟩]

lemma witnessPool_selects :
    Pool.selectWorker witnessPool = some ⟨"w2", 4, [], 1⟩ := by
  simp only [Pool.selectWorker, witnessPool, selectWorkerAux, ConnectedWorker.loadFraction]
  norm_num

/-- Witness for C4: on the concrete pool, the selected worker is a member
with load ratio below one, positive capacity, and minimal load. -/
theorem selectWorker_spec_witness :
    (⟨"w2", 4, [], 1⟩ : ConnectedWorker) ∈ witnessPool ∧
      (⟨"w2", 4, [], 1⟩ : ConnectedWorker).loadFraction < 1 ∧
      0 < (⟨"w2", 4, [], 1⟩ : ConnectedWorker).maxConcurrent ∧
      ∀ w' ∈ witnessPool,
        (⟨"w2", 4, [], 1⟩ : ConnectedWorker).loadFraction ≤ w'.loadFraction :=
  (selectWorker_spec witnessPool).2.2 _ witnessPool_selects

/-! ## Worker-connection lifecycle (C3): a step relation for the pool.

The transitions mirror the code paths that touch a worker's
`ActiveTasks` counter: registration (internal/worker/server.go, lines
59-81, which normalizes a non-positive `max_concurrent` to 4),
dispatch (internal/worker/dispatcher.go, lines 180-238: `SelectWorker`
followed by `IncrementActive`), result or timeout processing
(dispatcher.go lines 289-292 and 460-463: `DecrementActive`), and
stream teardown (server.go line 138: `Unregister`). -/

/-- Normalization of the advertised capacity at registration
(server.go, lines 59-62). -/
def normalizeMaxConcurrent (m : ℤ) : ℤ :=
  if m ≤ 0 then 4 else m

/-- One transition of the pool state. -/
inductive PoolStep : Pool → Pool → Prop where
  | register (p : Pool) (id : String) (m : ℤ) (provs : List String) :
      Pool.get p id = none →
      PoolStep p (p ++ [⟨id, normalizeMaxConcurrent m, provs, 0⟩])
  | dispatch (p : Pool) (w : ConnectedWorker) :
      Pool.selectWorker p = some w →
      PoolStep p (Pool.updateWorker p w.workerID ConnectedWorker.incrementActive)
  | result (p : Pool) (id : String) :
      PoolStep p (Pool.updateWorker p id ConnectedWorker.decrementActive)
  | unregister (p : Pool) (id : String) :
      PoolStep p (Pool.unregister p id)

/-- Pool states reachable from the empty pool (`NewPool`). -/
inductive PoolReachable : Pool → Prop where
  | init : PoolReachable []
  | step {p q : Pool} : PoolReachable p → PoolStep p q → PoolReachable q

/-- The inductive invariant: worker ids are unique and every counter sits
in `[0, maxConcurrent]`. -/
def PoolInv (p : Pool) : Prop :=
  (p.map ConnectedWorker.workerID).Nodup ∧
    ∀ w ∈ p, 0 ≤ w.activeTasks ∧ w.activeTasks ≤ w.maxConcurrent

lemma incrementActive_workerID (w : ConnectedWorker) :
    (ConnectedWorker.incrementActive w).workerID = w.workerID := rfl

lemma decrementActive_workerID (w : ConnectedWorker) :
    (ConnectedWorker.decrementActive w).workerID = w.workerID := by
  unfold ConnectedWorker.decrementActive
  split <;> rfl

lemma decrementActive_maxConcurrent (w : ConnectedWorker) :
    (ConnectedWorker.decrementActive w).maxConcurrent = w.maxConcurrent := by
  unfold ConnectedWorker.decrementActive
  split <;> rfl

lemma decrementActive_activeTasks (w : ConnectedWorker) :
    (ConnectedWorker.decrementActive w).activeTasks =
      if 0 < w.activeTasks then w.activeTasks - 1 else w.activeTasks := by
  unfold ConnectedWorker.decrementActive
  split <;> simp_all

lemma updateWorker_map_workerID (p : Pool) (id : String)
    (f : ConnectedWorker → ConnectedWorker)
    (hf : ∀ w, (f w).workerID = w.workerID) :
    (Pool.updateWorker p id f).map ConnectedWorker.workerID =
      p.map ConnectedWorker.workerID := by
  unfold Pool.updateWorker
  rw [List.map_map]
  refine List.map_congr_left ?_
  intro a _
  simp only [Function.comp_apply]
  by_cases h' : a.workerID == id
  · simp [h', hf]
  · simp [h']

lemma poolInv_step {p q : Pool} (hinv : PoolInv p) (hstep : PoolStep p q) :
    PoolInv q := by
  obtain ⟨hnd, hbnd⟩ := hinv
  cases hstep with
  | register id m provs hget =>
    have hid : id ∉ p.map ConnectedWorker.workerID := by
      intro hc
      obtain ⟨w, hw, hwid⟩ := List.mem_map.mp hc
      have := List.find?_eq_none.mp hget w hw
      simp [hwid] at this
    constructor
    · rw [List.map_append]
      refine List.Nodup.append hnd (List.nodup_singleton _) ?_
      intro a ha hb
      simp only [List.map_cons, List.map_nil, List.mem_singleton] at hb
      exact hid (hb ▸ ha)
    · intro w hw
      rcases List.mem_append.mp hw with h' | h'
      · exact hbnd w h'
      · rw [List.mem_singleton] at h'
        subst h'
        refine ⟨le_refl 0, ?_⟩
        show (0 : ℤ) ≤ normalizeMaxConcurrent m
        unfold normalizeMaxConcurrent
        split <;> omega
  | dispatch w hsel =>
    obtain ⟨hmem, hload, _⟩ := selectWorker_mem_and_min hsel
    have hmaxpos : 0 < w.maxConcurrent := loadFraction_lt_one_pos_max hload
    have hlt : w.activeTasks < w.maxConcurrent := by
      rw [ConnectedWorker.loadFraction, if_neg (by omega)] at hload
      have := (div_lt_one (by exact_mod_cast hmaxpos)).mp hload
      exact_mod_cast this
    constructor
    · rw [updateWorker_map_workerID p w.workerID _ incrementActive_workerID]
      exact hnd
    · intro w' hw'
      obtain ⟨a, ha, hEq⟩ := List.mem_map.mp hw'
      by_cases h' : a.workerID == w.workerID
      · have haw : a = w :=
          List.inj_on_of_nodup_map hnd ha hmem (by simpa using h')
        subst haw
        rw [← hEq]
        simp only [h', if_pos]
        unfold ConnectedWorker.incrementActive
        constructor
        · have := (hbnd a ha).1
          simp only []
          omega
        · simp only []
          omega
      · rw [← hEq]
        simp only [h', Bool.false_eq_true, if_false]
        exact hbnd a ha
  | result id =>
    constructor
    · rw [updateWorker_map_workerID p id _ decrementActive_workerID]
      exact hnd
    · intro w' hw'
      obtain ⟨a, ha, hEq⟩ := List.mem_map.mp hw'
      obtain ⟨h0, h1⟩ := hbnd a ha
      by_cases h' : a.workerID == id
      · rw [← hEq]
        simp only [h', if_pos]
        rw [decrementActive_activeTasks, decrementActive_maxConcurrent]
        constructor <;> split <;> omega
      · rw [← hEq]
        simp only [h', Bool.false_eq_true, if_false]
        exact ⟨h0, h1⟩
  | unregister id =>
    constructor
    · refine List.Sublist.nodup (List.Sublist.map _ ?_) hnd
      show (Pool.unregister p id).Sublist p
      unfold Pool.unregister
      exact List.filter_sublist p
    · intro w hw
      refine hbnd w ?_
      have hsub : (Pool.unregister p id).Sublist p := by
        unfold Pool.unregister
        exact List.filter_sublist p
      exact hsub.subset hw

lemma poolInv_of_reachable {p : Pool} (h : PoolReachable p) : PoolInv p := by
  induction h with
  | init => exact ⟨List.nodup_nil, by intro w hw; cases hw⟩
  | step _ hstep ih => exact poolInv_step ih hstep

/-- C3: in every reachable pool state, every connected worker's
active-task counter satisfies `0 ≤ active_tasks ≤ max_concurrent`:
the dispatcher only increments after selecting a worker whose load
ratio is strictly below `1.0`, and the guarded decrements never drive
the counter below zero. -/
theorem activeTasks_bounded {p : Pool} (h : PoolReachable p) :
    ∀ w ∈ p, 0 ≤ w.activeTasks ∧ w.activeTasks ≤ w.maxConcurrent :=
  (poolInv_of_reachable h).2

/-- A state reached by registering worker w1 (capacity 2) and dispatching
one task to it. -/
def witnessReachedPool : Pool := [⟨"w1", 2, [], 1⟩]

lemma witnessReachedPool_reachable : PoolReachable witnessReachedPool := by
  have h0 : PoolReachable ([] : Pool) := PoolReachable.init
  have h1 : PoolReachable [(⟨"w1", 2, [], 0⟩ : ConnectedWorker)] := by
    have := PoolReachable.step h0 (PoolStep.register [] "w1" 2 [] rfl)
    simpa [normalizeMaxConcurrent] using this
  have hsel : Pool.selectWorker [(⟨"w1", 2, [], 0⟩ : ConnectedWorker)] =
      some ⟨"w1", 2, [], 0⟩ := by
    simp only [Pool.selectWorker, selectWorkerAux, ConnectedWorker.loadFraction]
    norm_num
  have h2 := PoolReachable.step h1 (PoolStep.dispatch _ _ hsel)
  simpa [Pool.updateWorker, ConnectedWorker.incrementActive, witnessReachedPool] using h2

/-- Witness for C3: the bound holds for the worker in the concrete
reachable state. -/
theorem activeTasks_bounded_witness :
    0 ≤ (⟨"w1", 2, [], 1⟩ : ConnectedWorker).activeTasks ∧
      (⟨"w1", 2, [], 1⟩ : ConnectedWorker).activeTasks ≤
        (⟨"w1", 2, [], 1⟩ : ConnectedWorker).maxConcurrent :=
  activeTasks_bounded witnessReachedPool_reachable _ (by
    simp [witnessReachedPool])

/-! ## Worker streaming server (internal/worker/server.go) -/

/-- A long-term memory item returned by the worker inside a TaskResponse
(`pb.NewMemory`). Embedding components (float32 in the protocol) are
modelled as rationals. -/
structure NewMemory where
  content : String
  embedding : List ℚ
  memoryType : String
  metadataJson : String
deriving DecidableEq, Repr

/-- A worker's reply over the stream (`pb.TaskResponse`). -/
structure TaskResponse where
  requestId : String
  workerId : String
  responseText : String
  tokensUsed : ℤ
  durationMs : ℤ
  modelUsed : String
  errorMessage : String
  newMemories : List NewMemory
deriving DecidableEq, Repr

/-- The server's registration reply (`pb.RegisterAck`). -/
structure RegisterAck where
  accepted : Bool
  message : String
deriving DecidableEq, Repr

/-- A message arriving from the worker side of the stream
(`pb.WorkerMessage`, a tagged union). `malformed` stands for a message
that matches neither arm (ignored by the server). -/
inductive WorkerMessage where
  | register (workerID : String) (maxConcurrent : ℤ) (supportedProviders : List String)
  | taskResponse (resp : TaskResponse)
  | malformed
deriving DecidableEq, Repr

/-- The registration phase of Server.TaskStream (server.go, lines 41-111):
the first stream message must be a RegisterWorker; `max_concurrent ≤ 0`
defaults to 4; a duplicate `worker_id` is rejected and the pool is left
unchanged. Returns the pool after the attempt and the RegisterAck sent. -/
def Server.handleFirstMessage (pool : Pool) (firstMsg : WorkerMessage) :
    Pool × RegisterAck :=
  match firstMsg with
  | .register id m provs =>
    let r := Pool.register pool ⟨id, normalizeMaxConcurrent m, provs, 0⟩
    if r.2 then (r.1, ⟨true, "registered"⟩)
    else (r.1, ⟨false, "worker_id already registered"⟩)
  | _ => (pool, ⟨false, "first message must be RegisterWorker"⟩)

/-- The receive loop of Server.TaskStream (server.go, lines 113-133):
non-TaskResponse messages are ignored, and for each TaskResponse the
server overwrites `WorkerId` with the stream's registered worker id
before forwarding it to the result channel (line 131). -/
def Server.receiveLoop (regWorkerID : String) (msgs : List WorkerMessage) :
    List TaskResponse :=
  msgs.filterMap (fun m =>
    match m with
    | .taskResponse resp => some { resp with workerId := regWorkerID }
    | _ => none)

/-- C9: registering a `worker_id` that is already connected is rejected
with `RegisterAck{accepted=false}`, and the pool is unchanged: same size,
and the originally connected worker is still the entry under that id. -/
theorem duplicate_register_rejected (pool : Pool) (w₀ : ConnectedWorker)
    (id : String) (m : ℤ) (provs : List String)
    (h : Pool.get pool id = some w₀) :
    (Server.handleFirstMessage pool (.register id m provs)).1 = pool ∧
      (Server.handleFirstMessage pool (.register id m provs)).2.accepted = false ∧
      (Server.handleFirstMessage pool (.register id m provs)).1.length = pool.length ∧
      Pool.get (Server.handleFirstMessage pool (.register id m provs)).1 id = some w₀ := by
  have hpool : Pool.register pool ⟨id, normalizeMaxConcurrent m, provs, 0⟩ = (pool, false) := by
    unfold Pool.register
    rw [if_pos]
    show (Pool.get pool id).isSome = true
    rw [h]
    rfl
  simp only [Server.handleFirstMessage, hpool]
  exact ⟨rfl, rfl, rfl, h⟩

/-- Witness for C9: a concrete one-worker pool rejects a second
registration under the same id. -/
theorem duplicate_register_rejected_witness :
    (Server.handleFirstMessage [⟨"W1", 4, [], 0⟩] (.register ("W1") 8 [])).1 =
        [(⟨"W1", 4, [], 0⟩ : ConnectedWorker)] ∧
      (Server.handleFirstMessage [⟨"W1", 4, [], 0⟩] (.register ("W1") 8 [])).2.accepted = false ∧
      (Server.handleFirstMessage [⟨"W1", 4, [], 0⟩] (.register ("W1") 8 [])).1.length =
        [(⟨"W1", 4, [], 0⟩ : ConnectedWorker)].length ∧
      Pool.get (Server.handleFirstMessage [⟨"W1", 4, [], 0⟩] (.register ("W1") 8 [])).1 ("W1") =
        some ⟨"W1", 4, [], 0⟩ :=
  duplicate_register_rejected [⟨"W1", 4, [], 0⟩] ⟨"W1", 4, [], 0⟩ ("W1") 8 [] rfl

/-- C10: every TaskResponse forwarded to the dispatcher's result channel
carries the worker id registered on the stream it arrived on — the server
overwrites any worker-supplied value — and the other fields come from a
TaskResponse the worker actually sent. -/
theorem result_workerID_overwritten (regWorkerID : String) (msgs : List WorkerMessage) :
    ∀ r ∈ Server.receiveLoop regWorkerID msgs,
      r.workerId = regWorkerID ∧
        ∃ r₀, WorkerMessage.taskResponse r₀ ∈ msgs ∧
          r = { r₀ with workerId := regWorkerID } := by
  intro r hr
  obtain ⟨m, hm, hEq⟩ := List.mem_filterMap.mp hr
  cases m with
  | register id mc provs => cases hEq
  | malformed => cases hEq
  | taskResponse r₀ =>
    simp only [Option.some.injEq] at hEq
    subst hEq
    exact ⟨rfl, r₀, hm, rfl⟩

/-- A response carrying a spoofed worker id, as sent by the worker. -/
def spoofedResp : TaskResponse :=
  ⟨"r1", "spoofed", "ok", 3, 5, "m", "", []⟩

/-- The same response as it reaches the result channel. -/
def forwardedResp : TaskResponse :=
  ⟨"r1", "W1", "ok", 3, 5, "m", "", []⟩

/-- Witness for C10: a response sent with a spoofed worker id is forwarded
with the stream's registered id. -/
theorem result_workerID_overwritten_witness :
    forwardedResp.workerId = "W1" ∧
      ∃ r₀, WorkerMessage.taskResponse r₀ ∈ [WorkerMessage.taskResponse spoofedResp] ∧
        forwardedResp = { r₀ with workerId := "W1" } :=
  result_workerID_overwritten ("W1") [WorkerMessage.taskResponse spoofedResp]
    forwardedResp (List.mem_singleton.mpr rfl)

/-! ## Long-term memory search (internal/memory PostgresRepository.SearchSimilar)

The SQL query is modelled over a list of table rows. The pgvector
cosine-distance operator applied to the fixed query embedding is taken as
a parameter `dist` (a function of a row's stored embedding); the claim's
properties are proved for every such distance function, so they hold in
particular for cosine distance. `ORDER BY` is modelled by an insertion
sort on the distance key. -/

/-- A row of the `agent_memories` table. `embedding` is NULLable. -/
structure MemoryRow where
  id : String
  ownerUserID : String
  agentID : String
  content : String
  embedding : Option (List ℚ)
  memoryType : String
  metadataJson : String
deriving DecidableEq, Repr

/-- Insertion into a list kept ascending by the key `k`. -/
def insertAsc {α : Type} (k : α → ℚ) (x : α) : List α → List α
  | [] => [x]
  | y :: ys => if k x ≤ k y then x :: y :: ys else y :: insertAsc k x ys

/-- Ascending sort by the key `k` (the model of `ORDER BY k ASC`). -/
def sortAsc {α : Type} (k : α → ℚ) : List α → List α
  | [] => []
  | x :: xs => insertAsc k x (sortAsc k xs)

lemma mem_insertAsc {α : Type} (k : α → ℚ) (x a : α) (l : List α) :
    a ∈ insertAsc k x l ↔ a = x ∨ a ∈ l := by
  induction l with
  | nil => simp [insertAsc]
  | cons y ys ih =>
    unfold insertAsc
    split
    · simp
    · simp only [List.mem_cons, ih]
      tauto

lemma sorted_insertAsc {α : Type} (k : α → ℚ) (x : α) (l : List α)
    (h : l.Pairwise (fun a b => k a ≤ k b)) :
    (insertAsc k x l).Pairwise (fun a b => k a ≤ k b) := by
  induction l with
  | nil => simp [insertAsc]
  | cons y ys ih =>
    rw [List.pairwise_cons] at h
    obtain ⟨hy, hys⟩ := h
    unfold insertAsc
    split
    · rename_i hxy
      rw [List.pairwise_cons]
      refine ⟨?_, List.pairwise_cons.mpr ⟨hy, hys⟩⟩
      intro a ha
      rcases List.mem_cons.mp ha with h' | h'
      · exact h' ▸ hxy
      · exact le_trans hxy (hy a h')
    · rename_i hxy
      push_neg at hxy
      rw [List.pairwise_cons]
      refine ⟨?_, ih hys⟩
      intro a ha
      rcases (mem_insertAsc k x a ys).mp ha with h' | h'
      · exact h' ▸ le_of_lt hxy
      · exact hy a h'

lemma mem_sortAsc {α : Type} (k : α → ℚ) (a : α) (l : List α) :
    a ∈ sortAsc k l ↔ a ∈ l := by
  induction l with
  | nil => simp [sortAsc]
  | cons x xs ih =>
    unfold sortAsc
    rw [mem_insertAsc, ih, List.mem_cons]

lemma sorted_sortAsc {α : Type} (k : α → ℚ) (l : List α) :
    (sortAsc k l).Pairwise (fun a b => k a ≤ k b) := by
  induction l with
  | nil => exact List.Pairwise.nil
  | cons x xs ih => exact sorted_insertAsc k x _ ih

/-- The distance key of a row: the parameterized distance applied to the
row's stored embedding (rows reaching the key have an embedding). -/
def rowDist (dist : List ℚ → ℚ) (r : MemoryRow) : ℚ :=
  dist (r.embedding.getD [])

/-- SearchSimilar (memory PostgresRepository, SQL at part_006 lines 67-95):
keep rows of the given agent and owner whose embedding is present and whose
similarity `1 - dist` is at least `threshold`; order by ascending distance;
cap at `limit`; return each row with its similarity. -/
def searchSimilar (dist : List ℚ → ℚ) (table : List MemoryRow)
    (agentID ownerUserID : String) (limit : ℕ) (threshold : ℚ) :
    List (MemoryRow × ℚ) :=
  let rows := table.filter (fun r =>
    r.agentID == agentID && r.ownerUserID == ownerUserID &&
      r.embedding.isSome && decide (threshold ≤ 1 - rowDist dist r))
  ((sortAsc (rowDist dist) rows).take limit).map
    (fun r => (r, 1 - rowDist dist r))

/-- C2: every row returned by the similarity search belongs to the table
and has the requested owner and agent ids; rows with a missing embedding
or similarity below the threshold are excluded; results are ordered by
ascending distance; and at most `limit` rows are returned. -/
theorem searchSimilar_spec (dist : List ℚ → ℚ) (table : List MemoryRow)
    (agentID ownerUserID : String) (limit : ℕ) (threshold : ℚ) :
    (∀ x ∈ searchSimilar dist table agentID ownerUserID limit threshold,
      x.1 ∈ table ∧ x.1.ownerUserID = ownerUserID ∧ x.1.agentID = agentID ∧
        x.1.embedding.isSome = true ∧ threshold ≤ x.2 ∧
        x.2 = 1 - rowDist dist x.1) ∧
    (searchSimilar dist table agentID ownerUserID limit threshold).length ≤ limit ∧
    (searchSimilar dist table agentID ownerUserID limit threshold).Pairwise
      (fun a b => rowDist dist a.1 ≤ rowDist dist b.1) := by
  refine ⟨?_, ?_, ?_⟩
  · intro x hx
    unfold searchSimilar at hx
    obtain ⟨r, hr, hEq⟩ := List.mem_map.mp hx
    have hr' : r ∈ sortAsc (rowDist dist) _ := List.take_subset _ _ hr
    rw [mem_sortAsc] at hr'
    rw [List.mem_filter] at hr'
    obtain ⟨hmem, hpred⟩ := hr'
    simp only [Bool.and_eq_true, beq_iff_eq, decide_eq_true_eq] at hpred
    obtain ⟨⟨⟨hA, hO⟩, hsome⟩, hth⟩ := hpred
    rw [← hEq]
    exact ⟨hmem, hO, hA, hsome, hth, rfl⟩
  · unfold searchSimilar
    rw [List.length_map, List.length_take]
    exact min_le_left _ _
  · unfold searchSimilar
    exact List.Pairwise.map (fun r => (r, 1 - rowDist dist r))
      (fun a b (h : rowDist dist a ≤ rowDist dist b) => h)
      (List.Pairwise.sublist (List.take_sublist _ _) (sorted_sortAsc _ _))

/-- A concrete table for the search witness: one matching row with an
embedding at distance zero, and one row with a missing embedding. -/
def witnessRow : MemoryRow :=
  ⟨"m1", "O", "A", "likes tea", some [0], "fact", "\x7b\x7d"⟩

/-- A row with NULL embedding, excluded from every search. -/
def witnessRowNoEmb : MemoryRow :=
  ⟨"m2", "O", "A", "no embedding", none, "fact", "\x7b\x7d"⟩

/-- Distance function used in the witness: the head of the embedding. -/
def witnessDist : List ℚ → ℚ := fun e => e.headD 0

lemma searchSimilar_witness_eval :
    searchSimilar witnessDist [witnessRow, witnessRowNoEmb] ("A") ("O") 1 0 =
      [(witnessRow, 1)] := by
  norm_num [searchSimilar, witnessRow, witnessRowNoEmb, witnessDist, rowDist,
    List.filter, sortAsc, insertAsc]

/-- Witness for C2: the concrete search returns the matching row with the
claimed tenancy, similarity, and shape. -/
theorem searchSimilar_spec_witness :
    witnessRow ∈ [witnessRow, witnessRowNoEmb] ∧
      witnessRow.ownerUserID = "O" ∧ witnessRow.agentID = "A" ∧
      witnessRow.embedding.isSome = true ∧ (0 : ℚ) ≤ 1 ∧
      (1 : ℚ) = 1 - rowDist witnessDist witnessRow :=
  (searchSimilar_spec witnessDist [witnessRow, witnessRowNoEmb] ("A") ("O") 1 0).1
    (witnessRow, 1) (searchSimilar_witness_eval ▸ List.mem_singleton.mpr rfl)

/-! ## Messages and events (internal/nats/events.go) -/

/-- InboundMessage (events.go, lines 29-36). `receivedAt` abstracts the
timestamp. -/
structure InboundMessage where
  id : String
  fromJID : String
  toJID : String
  body : String
  stanzaType : String
  receivedAt : ℤ
deriving DecidableEq, Repr

/-- OutboundMessage (events.go, lines 39-45). -/
structure OutboundMessage where
  id : String
  toJID : String
  fromJID : String
  body : String
  inReplyTo : String
deriving DecidableEq, Repr

/-- TaskMessage (events.go, lines 48-56). -/
structure TaskMessage where
  requestID : String
  agentID : String
  ownerUserID : String
  message : String
  fromJID : String
  agentJID : String
  agentName : String
deriving DecidableEq, Repr

/-- AuditEvent (events.go, lines 68-76). -/
structure AuditEvent where
  ownerUserID : String
  eventType : String
  severity : String
  resourceType : String
  resourceID : String
  details : String
  timestamp : ℤ
deriving DecidableEq, Repr

/-! ## Orchestrator (internal/orchestrator: validator and router files) -/

/-- GovernanceConfig as parsed by `governance.ParseGovernance`. Empty or
invalid raw governance parses to the zero config (all fields cleared),
which also passes every check, so the raw-bytes early return in
`checkGovernance` is behaviour-equivalent to checking the zero config. -/
structure GovernanceConfig where
  allowedDomains : List String
  maxTokensPerRequest : ℤ
  allowedProviders : List String
  blocked : Bool
deriving DecidableEq, Repr

/-- RouteResult (orchestrator router file, lines 14-21), with governance
already parsed. -/
structure RouteResult where
  agentID : String
  ownerUserID : String
  agentName : String
  agentJID : String
  visibility : String
  governance : GovernanceConfig
deriving DecidableEq, Repr

/-- Case-insensitive string equality, modelling `strings.EqualFold` via
lower-casing (adequate for the ASCII domains and provider names used). -/
def eqFold (a b : String) : Bool :=
  a.toLower == b.toLower

/-- The extractDomain helper of the validator: strip an optional resource
after a slash, then take everything after the first at sign. -/
def extractDomain (jid : String) : String :=
  let bare := (jid.splitOn ("/")).headD jid
  match bare.splitOn ("@") with
  | [] => bare
  | [_] => bare
  | _ :: rest => String.intercalate ("@") rest

/-- The domainAllowed helper of the validator (case-insensitive member
test). -/
def domainAllowed (domain : String) (allowed : List String) : Bool :=
  allowed.any (fun d => eqFold d domain)

/-- Validator.checkGovernance: a blocked agent or a JID outside a
configured `allowed_domains` list rejects the route. -/
def checkGovernance (route : RouteResult) : Option String :=
  if route.governance.blocked then
    some ("agent is blocked by governance policy")
  else if route.governance.allowedDomains.isEmpty then
    none
  else if domainAllowed (extractDomain route.agentJID) route.governance.allowedDomains then
    none
  else
    some ("agent JID domain not in allowed domains")

/-- Validator.Validate: nil agent or owner ids are rejected, then
governance is checked. Returns the error message, or none on success. -/
def Validator.validate (route : RouteResult) : Option String :=
  if route.agentID == uuidNil then some ("agent not found")
  else if route.ownerUserID == uuidNil then some ("agent has no owner")
  else checkGovernance route

/-- Ack or Nak of the upstream bus message. -/
inductive MsgAction where
  | ack
  | nak
deriving DecidableEq, Repr

/-- Everything the orchestrator publishes while handling one inbound
message, plus the ack decision. -/
structure OrchOutput where
  tasks : List (String × TaskMessage)
  outbounds : List OutboundMessage
  audits : List AuditEvent
  action : MsgAction
deriving DecidableEq, Repr

/-- Orchestrator.sendErrorResponse (orchestrator router file): the error
body is prefixed with "Error: " and addressed back to the sender. -/
def Orchestrator.sendErrorResponse (inbound : InboundMessage)
    (errMsg outboundID : String) : OutboundMessage :=
  { id := outboundID, toJID := inbound.fromJID, fromJID := inbound.toJID,
    body := "Error: " ++ errMsg, inReplyTo := inbound.id }

/-- Orchestrator.processMessage (orchestrator router file, lines 214-284).
The router's lookup outcome is a parameter (`none` models a routing
failure); `outboundID` stands for the fresh `uuid.New()` of the published
outbound, `now` for `time.Now()`.

On the success path the Go code builds the TaskMessage with only
RequestID, AgentID, OwnerUserID, Message and FromJID (lines 246-252); the
AgentJID and AgentName fields keep their zero values, and a Phase 2
placeholder OutboundMessage is always published (lines 257-267). -/
def Orchestrator.processMessage (inbound : InboundMessage)
    (routeOutcome : Option RouteResult) (outboundID : String) (now : ℤ) :
    OrchOutput :=
  match routeOutcome with
  | none =>
    { tasks := [],
      outbounds := [Orchestrator.sendErrorResponse inbound ("Agent not found") outboundID],
      audits := [], action := .ack }
  | some route =>
    match Validator.validate route with
    | some _ =>
      { tasks := [],
        outbounds := [Orchestrator.sendErrorResponse inbound ("Message not authorized") outboundID],
        audits := [], action := .ack }
    | none =>
      let task : TaskMessage :=
        { requestID := inbound.id, agentID := route.agentID,
          ownerUserID := route.ownerUserID, message := inbound.body,
          fromJID := inbound.fromJID, agentJID := "", agentName := "" }
      let placeholder : OutboundMessage :=
        { id := outboundID, toJID := inbound.fromJID, fromJID := route.agentJID,
          body := "[" ++ route.agentName ++
            "] Message received. AI processing will be available in Phase 3.",
          inReplyTo := inbound.id }
      let audit : AuditEvent :=
        { ownerUserID := route.ownerUserID, eventType := "message_routed",
          severity := "info", resourceType := "agent", resourceID := route.agentID,
          details := "Message routed from " ++ inbound.fromJID, timestamp := now }
      { tasks := [("aiox.tasks." ++ route.agentID, task)],
        outbounds := [placeholder],
        audits := [audit],
        action := .ack }

/-- C5: for every successfully validated route, the emitted task goes to
subject `aiox.tasks.<agent_id>` with `request_id` equal to the inbound
message id and the resolved agent and owner ids — but the Go code leaves
`agent_jid` and `agent_name` empty instead of carrying the resolved
agent's address and name, contradicting the claim. -/
theorem taskMessage_missing_agent_fields (inbound : InboundMessage)
    (route : RouteResult) (outboundID : String) (now : ℤ)
    (h : Validator.validate route = none) :
    (Orchestrator.processMessage inbound (some route) outboundID now).tasks =
      [("aiox.tasks." ++ route.agentID,
        { requestID := inbound.id, agentID := route.agentID,
          ownerUserID := route.ownerUserID, message := inbound.body,
          fromJID := inbound.fromJID, agentJID := "", agentName := "" })] := by
  simp only [Orchestrator.processMessage, h]

/-- The inbound message of the concrete routed scenario. -/
def routedInbound : InboundMessage :=
  ⟨"msg-1", "user@aiox.local", "agent-1@agents.aiox.local", "hi", "chat", 0⟩

/-- The resolved route of the concrete scenario: a valid agent with a
non-empty JID and name and permissive governance. -/
def routedRoute : RouteResult :=
  ⟨"8b6f2a10-0000-0000-0000-000000000001", "5d4c3b20-0000-0000-0000-000000000002",
   "TestAgent", "agent-1@agents.aiox.local", "private", ⟨[], 0, [], false⟩⟩

lemma routedRoute_validates : Validator.validate routedRoute = none := by
  rfl

/-- Witness for C5: on the concrete routed message the emitted task has
empty `agent_jid` and `agent_name` even though the route resolved
non-empty ones. -/
theorem taskMessage_missing_agent_fields_witness :
    (Orchestrator.processMessage routedInbound (some routedRoute) ("ob-1") 0).tasks =
        [("aiox.tasks." ++ routedRoute.agentID,
          { requestID := routedInbound.id, agentID := routedRoute.agentID,
            ownerUserID := routedRoute.ownerUserID, message := routedInbound.body,
            fromJID := routedInbound.fromJID, agentJID := "", agentName := "" })] ∧
      routedRoute.agentJID = "agent-1@agents.aiox.local" ∧
      routedRoute.agentName = "TestAgent" :=
  ⟨taskMessage_missing_agent_fields routedInbound routedRoute ("ob-1") 0
      routedRoute_validates, rfl, rfl⟩

/-! ## Dispatcher (internal/worker/dispatcher.go) -/

/-- The memory configuration parsed from the agent record
(`memory.ParseConfig`). Only the fields that steer the dispatcher's
modelled paths are kept; the limits and TTL fields do not affect them. -/
structure MemoryConfig where
  enabled : Bool
  longTermEnabled : Bool
deriving DecidableEq, Repr

/-- The agent fields the dispatcher reads after `agentSvc.GetByID`:
parsed governance, the provider extracted from the LLM config
(`extractProvider`), the decrypted system prompt, and the parsed memory
config. -/
structure Agent where
  governance : GovernanceConfig
  llmProvider : String
  systemPrompt : String
  memoryConfig : MemoryConfig
deriving DecidableEq, Repr

/-- Outcome of the agent lookup: a DB error (transient), a missing
agent, or the record. -/
inductive AgentFetch where
  | dbError
  | notFound
  | found (a : Agent)
deriving DecidableEq, Repr

/-- The providerAllowed helper (dispatcher.go, lines 495-502):
case-insensitive membership. -/
def providerAllowed (provider : String) (allowed : List String) : Bool :=
  allowed.any (fun a => eqFold a provider)

/-- PendingTask (dispatcher.go, lines 23-34). -/
structure PendingTask where
  requestID : String
  agentID : String
  ownerUserID : String
  fromJID : String
  agentJID : String
  agentName : String
  workerID : String
  input : String
  dispatchedAt : ℤ
  memoryConfig : MemoryConfig
deriving DecidableEq, Repr

/-- An execution record (worker repository file, lines 13-27). The fresh
row id and the created-at timestamp are omitted from the model. -/
structure Execution where
  ownerUserID : String
  agentID : String
  input : String
  output : String
  tokensUsed : ℤ
  workerID : String
  durationMs : ℤ
  goLatencyMs : ℤ
  pythonLatencyMs : ℤ
  status : String
  errorMessage : String
deriving DecidableEq, Repr

/-- The payload sent to the selected worker (`pb.TaskRequest`); the memory
context and config JSON blobs are omitted from the model (they do not
affect the claims). -/
structure TaskRequest where
  requestId : String
  agentId : String
  ownerUserId : String
  userMessage : String
  systemPrompt : String
  fromJid : String
  agentJid : String
  agentName : String
deriving DecidableEq, Repr

/-- A single-quote character, written via its code point. -/
def singleQuote : String := String.mk [Char.ofNat 39]

/-- Dispatcher.sendErrorResponse (dispatcher.go, lines 467-478): the
outbound error body is prefixed with "Error: " and addressed back to the
task's original sender. -/
def Dispatcher.sendErrorResponse (task : TaskMessage) (errMsg outboundID : String) :
    OutboundMessage :=
  { id := outboundID, toJID := task.fromJID, fromJID := task.agentJID,
    body := "Error: " ++ errMsg, inReplyTo := task.requestID }

/-- Everything Dispatcher.handleTask publishes or mutates, plus the ack
decision. `sent` is the request delivered to a worker's stream, tagged
with the worker id. -/
structure HandleTaskOutput where
  outbounds : List OutboundMessage
  sent : Option (String × TaskRequest)
  pool : Pool
  pendingInsert : Option PendingTask
  executions : List Execution
  quotaDeduction : Option (String × ℤ)
  action : MsgAction
deriving DecidableEq, Repr

/-- Output with nothing published and the pool untouched. -/
def HandleTaskOutput.noEffect (pool : Pool) (action : MsgAction) : HandleTaskOutput :=
  { outbounds := [], sent := none, pool := pool, pendingInsert := none,
    executions := [], quotaDeduction := none, action := action }

/-- Dispatcher.handleTask (dispatcher.go, lines 137-263). The agent
lookup outcome and the success of the stream send are parameters; `now`
is the dispatch timestamp, `outboundID` the fresh uuid of an error
outbound. The memory read (lines 203-225) only fills the request's
context blob and is non-fatal, so it does not appear among the modelled
outputs. -/
def Dispatcher.handleTask (task : TaskMessage) (agentFetch : AgentFetch)
    (pool : Pool) (sendOk : Bool) (now : ℤ) (outboundID : String) :
    HandleTaskOutput :=
  match agentFetch with
  | .dbError => HandleTaskOutput.noEffect pool .nak
  | .notFound =>
    { HandleTaskOutput.noEffect pool .ack with
      outbounds := [Dispatcher.sendErrorResponse task ("Agent not found") outboundID] }
  | .found agent =>
    if agent.governance.blocked then
      { HandleTaskOutput.noEffect pool .ack with
        outbounds := [Dispatcher.sendErrorResponse task
          ("Agent is blocked by governance policy") outboundID] }
    else if !agent.governance.allowedProviders.isEmpty &&
        !(agent.llmProvider == "") &&
        !providerAllowed agent.llmProvider agent.governance.allowedProviders then
      { HandleTaskOutput.noEffect pool .ack with
        outbounds := [Dispatcher.sendErrorResponse task
          ("LLM provider " ++ singleQuote ++ agent.llmProvider ++ singleQuote ++
            " not allowed by governance policy") outboundID] }
    else
      match Pool.selectWorker pool with
      | none => HandleTaskOutput.noEffect pool .nak
      | some w =>
        if !sendOk then HandleTaskOutput.noEffect pool .nak
        else
          let req : TaskRequest :=
            { requestId := task.requestID, agentId := task.agentID,
              ownerUserId := task.ownerUserID, userMessage := task.message,
              systemPrompt := agent.systemPrompt, fromJid := task.fromJID,
              agentJid := task.agentJID, agentName := task.agentName }
          let pt : PendingTask :=
            { requestID := task.requestID, agentID := task.agentID,
              ownerUserID := task.ownerUserID, fromJID := task.fromJID,
              agentJID := task.agentJID, agentName := task.agentName,
              workerID := w.workerID, input := task.message,
              dispatchedAt := now, memoryConfig := agent.memoryConfig }
          { outbounds := [], sent := some (w.workerID, req),
            pool := Pool.updateWorker pool w.workerID ConnectedWorker.incrementActive,
            pendingInsert := some pt, executions := [],
            quotaDeduction := none, action := .ack }

/-- A per-user quota row: the daily counters touched by
`Repository.IncrementDaily`. -/
structure QuotaRow where
  tokensUsedToday : ℤ
  requestsToday : ℤ
deriving DecidableEq, Repr

/-- Repository.IncrementDaily (quota service file, lines 143-154): one
atomic update adding the tokens and one request. -/
def Quota.incrementDaily (q : QuotaRow) (tokens : ℤ) : QuotaRow :=
  { tokensUsedToday := q.tokensUsedToday + tokens,
    requestsToday := q.requestsToday + 1 }

/-- Everything Dispatcher.handleResult publishes or mutates. -/
structure HandleResultOutput where
  pending : List PendingTask
  pool : Pool
  outbounds : List OutboundMessage
  executions : List Execution
  quota : QuotaRow
  shortTermWrites : List (String × String)
  longTermWrites : List NewMemory
  audits : List AuditEvent
deriving DecidableEq, Repr

/-- Dispatcher.handleResult (dispatcher.go, lines 276-401). The pending
map is an association list keyed by request id; `quota` is the owner's
daily row; `outboundID` the fresh uuid of the published outbound and
`now` the processing timestamp. An unknown request id is dropped with no
effect (lines 284-287). -/
def Dispatcher.handleResult (pending : List PendingTask) (resp : TaskResponse)
    (pool : Pool) (quota : QuotaRow) (outboundID : String) (now : ℤ) :
    HandleResultOutput :=
  match pending.find? (fun pt => pt.requestID == resp.requestId) with
  | none =>
    { pending := pending, pool := pool, outbounds := [], executions := [],
      quota := quota, shortTermWrites := [], longTermWrites := [], audits := [] }
  | some pt =>
    let pending' := pending.filter (fun q => q.requestID != resp.requestId)
    let pool' := Pool.updateWorker pool resp.workerId ConnectedWorker.decrementActive
    let status := if resp.errorMessage == "" then "completed" else "error"
    let body := if resp.errorMessage == "" then resp.responseText
      else "Error processing your message: " ++ resp.errorMessage
    let outbound : OutboundMessage :=
      { id := outboundID, toJID := pt.fromJID, fromJID := pt.agentJID,
        body := body, inReplyTo := pt.requestID }
    let exec : Execution :=
      { ownerUserID := pt.ownerUserID, agentID := pt.agentID, input := pt.input,
        output := resp.responseText, tokensUsed := resp.tokensUsed,
        workerID := resp.workerId, durationMs := resp.durationMs,
        goLatencyMs := now - pt.dispatchedAt, pythonLatencyMs := resp.durationMs,
        status := status, errorMessage := resp.errorMessage }
    let quota' := if status == "completed" && decide (0 < resp.tokensUsed) then
        Quota.incrementDaily quota resp.tokensUsed
      else quota
    let shortTermWrites := if pt.memoryConfig.enabled && status == "completed" then
        [(pt.input, resp.responseText)]
      else []
    let longTermWrites := if pt.memoryConfig.enabled && status == "completed" &&
        pt.memoryConfig.longTermEnabled then resp.newMemories
      else []
    let audit : AuditEvent :=
      { ownerUserID := pt.ownerUserID,
        eventType := if status == "error" then "task_failed" else "task_completed",
        severity := if status == "error" then "warn" else "info",
        resourceType := "agent", resourceID := pt.agentID,
        details := "Task processed by worker " ++ resp.workerId ++ ", model: " ++
          resp.modelUsed,
        timestamp := now }
    { pending := pending', pool := pool', outbounds := [outbound],
      executions := [exec], quota := quota', shortTermWrites := shortTermWrites,
      longTermWrites := longTermWrites, audits := [audit] }

/-! ## Timeout reaper (dispatcher.go, expireStale) -/

/-- The task timeout configured in NewDispatcher (dispatcher.go, lines
64-68): the configured number of seconds, or 120 when it is not
positive. Times are in seconds. -/
def dispatcherTimeout (taskTimeoutSec : ℤ) : ℤ :=
  if taskTimeoutSec ≤ 0 then 120 else taskTimeoutSec

/-- The first loop of expireStale (dispatcher.go, lines 418-427): walk the
pending map, deleting entries older than the timeout and collecting them.
Returns (kept, expired). -/
def expireSplit (now timeout : ℤ) : List PendingTask → List PendingTask × List PendingTask
  | [] => ([], [])
  | pt :: rest =>
    let r := expireSplit now timeout rest
    if timeout < now - pt.dispatchedAt then (r.1, pt :: r.2) else (pt :: r.1, r.2)

/-- The timeout outbound published for an expired entry (dispatcher.go,
lines 432-442). -/
def mkTimeoutOutbound (outboundID : String) (pt : PendingTask) : OutboundMessage :=
  { id := outboundID, toJID := pt.fromJID, fromJID := pt.agentJID,
    body := "Sorry, the request timed out. Please try again.",
    inReplyTo := pt.requestID }

/-- The execution recorded for an expired entry (dispatcher.go, lines
444-458). Go renders the timeout duration inside the error message; the
rendering is abstracted to the number of seconds. -/
def mkTimeoutExecution (now timeout : ℤ) (pt : PendingTask) : Execution :=
  { ownerUserID := pt.ownerUserID, agentID := pt.agentID, input := pt.input,
    output := "", tokensUsed := 0, workerID := pt.workerID, durationMs := 0,
    goLatencyMs := now - pt.dispatchedAt, pythonLatencyMs := 0,
    status := "timeout",
    errorMessage := "task timed out after " ++ toString timeout ++ "s" }

/-- Everything one reaper tick removes, publishes and mutates. -/
structure ExpireOutput where
  pending : List PendingTask
  outbounds : List OutboundMessage
  executions : List Execution
  pool : Pool
deriving DecidableEq, Repr

/-- Dispatcher.expireStale (dispatcher.go, lines 417-465): split off the
expired entries, then publish a timeout outbound and record a timeout
execution for each, decrementing the worker of each expired entry when it
is still in the pool. `uuidGen` supplies the fresh outbound ids. -/
def Dispatcher.expireStale (uuidGen : String → String) (now timeout : ℤ)
    (pending : List PendingTask) (pool : Pool) : ExpireOutput :=
  let s := expireSplit now timeout pending
  { pending := s.1,
    outbounds := s.2.map (fun pt => mkTimeoutOutbound (uuidGen pt.requestID) pt),
    executions := s.2.map (mkTimeoutExecution now timeout),
    pool := s.2.foldl (fun p pt =>
      Pool.updateWorker p pt.workerID ConnectedWorker.decrementActive) pool }

lemma expireSplit_eq (now timeout : ℤ) (l : List PendingTask) :
    expireSplit now timeout l =
      (l.filter (fun pt => !decide (timeout < now - pt.dispatchedAt)),
       l.filter (fun pt => decide (timeout < now - pt.dispatchedAt))) := by
  induction l with
  | nil => rfl
  | cons pt rest ih =>
    unfold expireSplit
    rw [ih]
    by_cases h : timeout < now - pt.dispatchedAt
    · simp [h]
    · simp [h]

lemma get_updateWorker (p : Pool) (id id' : String)
    (f : ConnectedWorker → ConnectedWorker)
    (hf : ∀ w, (f w).workerID = w.workerID) :
    Pool.get (Pool.updateWorker p id' f) id =
      (Pool.get p id).map (fun w => if w.workerID == id' then f w else w) := by
  unfold Pool.get Pool.updateWorker
  rw [List.find?_map]
  have hpred : ((fun w : ConnectedWorker => w.workerID == id) ∘
      (fun w => if w.workerID == id' then f w else w)) =
      (fun w : ConnectedWorker => w.workerID == id) := by
    funext w
    by_cases h : w.workerID == id'
    · simp [Function.comp, h, hf]
    · simp [Function.comp, h]
  rw [hpred]

/-- Iterated guarded decrement. -/
def decN : ℕ → ConnectedWorker → ConnectedWorker
  | 0, w => w
  | n + 1, w => decN n (ConnectedWorker.decrementActive w)

lemma decN_spec (n : ℕ) (w : ConnectedWorker) (h : 0 ≤ w.activeTasks) :
    decN n w = { w with activeTasks := max (w.activeTasks - (n : ℤ)) 0 } := by
  induction n generalizing w with
  | zero =>
    have hmax : max (w.activeTasks - ((0 : ℕ) : ℤ)) 0 = w.activeTasks := by
      push_cast
      omega
    rw [show decN 0 w = w from rfl, hmax]
  | succ n ih =>
    show decN n (ConnectedWorker.decrementActive w) = _
    by_cases h0 : 0 < w.activeTasks
    · rw [ConnectedWorker.decrementActive, if_pos h0]
      rw [ih _ (by simp; omega)]
      congr 1
      simp only []
      push_cast
      omega
    · rw [ConnectedWorker.decrementActive, if_neg h0]
      rw [ih w h]
      congr 1
      push_cast
      omega

lemma get_some_workerID {p : Pool} {id : String} {w : ConnectedWorker}
    (h : Pool.get p id = some w) : w.workerID = id := by
  have := List.find?_some h
  simpa using this

lemma get_foldl_decrement (l : List PendingTask) (pool : Pool) (id : String) :
    Pool.get (l.foldl (fun p pt =>
        Pool.updateWorker p pt.workerID ConnectedWorker.decrementActive) pool) id =
      (Pool.get pool id).map
        (decN (l.filter (fun pt => pt.workerID == id)).length) := by
  induction l generalizing pool with
  | nil =>
    cases h : Pool.get pool id <;> simp [h, decN]
  | cons pt rest ih =>
    rw [List.foldl_cons, ih,
      get_updateWorker _ _ _ _ decrementActive_workerID]
    cases hg : Pool.get pool id with
    | none => simp
    | some w =>
      have hwid : w.workerID = id := get_some_workerID hg
      by_cases hc : pt.workerID = id
      · have hcond : (w.workerID == pt.workerID) = true := by
          simp [hwid, hc]
        have hbeq : (pt.workerID == id) = true := by simp [hc]
        have hfilter : List.filter (fun q => q.workerID == id) (pt :: rest) =
            pt :: List.filter (fun q => q.workerID == id) rest := by
          rw [List.filter_cons, if_pos hbeq]
        rw [hfilter]
        simp only [Option.map_some', List.length_cons]
        rw [if_pos hcond]
        rfl
      · have hcond : ¬((w.workerID == pt.workerID) = true) := by
          simp [hwid]
          exact fun hcontra => hc hcontra.symm
        have hbeq : ¬((pt.workerID == id) = true) := by simp [hc]
        have hfilter : List.filter (fun q => q.workerID == id) (pt :: rest) =
            List.filter (fun q => q.workerID == id) rest := by
          rw [List.filter_cons, if_neg hbeq]
        rw [hfilter]
        simp only [Option.map_some']
        rw [if_neg hcond]

/-- C7: on a reaper tick, exactly the pending entries older than the
timeout (the configured seconds, or 120 when the configuration is not
positive) are removed; each such entry gets one timeout outbound to its
original sender and one execution with status "timeout"; and each
worker still in the pool is decremented once per expired entry it owned
(floored at zero). -/
theorem expireStale_spec (uuidGen : String → String) (now cfgSec t : ℤ)
    (pending : List PendingTask) (pool : Pool)
    (ht : t = dispatcherTimeout cfgSec) :
    ((cfgSec ≤ 0 → t = 120) ∧ (0 < cfgSec → t = cfgSec)) ∧
    (∀ pt, pt ∈ (Dispatcher.expireStale uuidGen now t pending pool).pending ↔
      pt ∈ pending ∧ now - pt.dispatchedAt ≤ t) ∧
    (∀ pt ∈ pending, t < now - pt.dispatchedAt →
      mkTimeoutOutbound (uuidGen pt.requestID) pt ∈
          (Dispatcher.expireStale uuidGen now t pending pool).outbounds ∧
        mkTimeoutExecution now t pt ∈
          (Dispatcher.expireStale uuidGen now t pending pool).executions ∧
        (mkTimeoutExecution now t pt).status = "timeout" ∧
        (mkTimeoutOutbound (uuidGen pt.requestID) pt).toJID = pt.fromJID ∧
        (mkTimeoutOutbound (uuidGen pt.requestID) pt).inReplyTo = pt.requestID ∧
        (mkTimeoutOutbound (uuidGen pt.requestID) pt).body =
          "Sorry, the request timed out. Please try again.") ∧
    (∀ ob ∈ (Dispatcher.expireStale uuidGen now t pending pool).outbounds,
      ∃ pt ∈ pending, t < now - pt.dispatchedAt ∧
        ob = mkTimeoutOutbound (uuidGen pt.requestID) pt) ∧
    ((Dispatcher.expireStale uuidGen now t pending pool).outbounds.length =
        (pending.filter (fun pt => decide (t < now - pt.dispatchedAt))).length ∧
      (Dispatcher.expireStale uuidGen now t pending pool).executions.length =
        (pending.filter (fun pt => decide (t < now - pt.dispatchedAt))).length) ∧
    (∀ id w, Pool.get pool id = some w → 0 ≤ w.activeTasks →
      Pool.get (Dispatcher.expireStale uuidGen now t pending pool).pool id =
        some { w with activeTasks := max (w.activeTasks -
          (((pending.filter (fun pt => decide (t < now - pt.dispatchedAt))).filter
            (fun pt => pt.workerID == id)).length : ℤ)) 0 }) := by
  subst ht
  refine ⟨⟨fun h => by rw [dispatcherTimeout, if_pos h],
    fun h => by rw [dispatcherTimeout, if_neg (by omega)]⟩, ?_, ?_, ?_, ?_, ?_⟩
  · intro pt
    unfold Dispatcher.expireStale
    rw [expireSplit_eq]
    simp only [List.mem_filter, Bool.not_eq_eq_eq_not, Bool.not_true,
      decide_eq_false_iff_not]
    constructor
    · rintro ⟨hmem, hle⟩
      exact ⟨hmem, by omega⟩
    · rintro ⟨hmem, hle⟩
      exact ⟨hmem, by omega⟩
  · intro pt hmem hexp
    refine ⟨?_, ?_, rfl, rfl, rfl, rfl⟩
    · unfold Dispatcher.expireStale
      rw [expireSplit_eq]
      exact List.mem_map.mpr ⟨pt, List.mem_filter.mpr ⟨hmem, by simpa using hexp⟩, rfl⟩
    · unfold Dispatcher.expireStale
      rw [expireSplit_eq]
      exact List.mem_map.mpr ⟨pt, List.mem_filter.mpr ⟨hmem, by simpa using hexp⟩, rfl⟩
  · intro ob hob
    unfold Dispatcher.expireStale at hob
    rw [expireSplit_eq] at hob
    obtain ⟨pt, hpt, hEq⟩ := List.mem_map.mp hob
    rw [List.mem_filter] at hpt
    exact ⟨pt, hpt.1, by simpa using hpt.2, hEq.symm⟩
  · unfold Dispatcher.expireStale
    rw [expireSplit_eq]
    simp [List.length_map]
  · intro id w hget hpos
    unfold Dispatcher.expireStale
    rw [expireSplit_eq]
    simp only []
    rw [get_foldl_decrement, hget]
    simp only [Option.map_some']
    rw [decN_spec _ _ hpos]

/-! ## Claim theorems over the dispatcher -/

/-- A pending entry that has been in flight since time 0. -/
def expiredEntry : PendingTask :=
  ⟨"req-1", "agent-1", "owner-1", "user@aiox.local", "agent-1@agents.aiox.local",
   "TestAgent", "W1", "hi", 0, ⟨false, false⟩⟩

/-- A pending entry dispatched at time 150 (not yet expired at 200). -/
def freshEntry : PendingTask :=
  ⟨"req-2", "agent-1", "owner-1", "user@aiox.local", "agent-1@agents.aiox.local",
   "TestAgent", "W1", "yo", 150, ⟨false, false⟩⟩

/-- Fresh outbound ids for the reaper witness. -/
def reaperUUIDs : String → String := fun s => "uuid-" ++ s

/-- Witness for C7: with timeout 120 (the default for a non-positive
configuration) at time 200, the entry dispatched at 0 is reaped — its
timeout outbound is published — the entry dispatched at 150 stays, and
the worker holding one active task drops to zero. -/
theorem expireStale_spec_witness :
    freshEntry ∈ (Dispatcher.expireStale reaperUUIDs 200 120
        [expiredEntry, freshEntry] [⟨"W1", 4, [], 1⟩]).pending ∧
      mkTimeoutOutbound (reaperUUIDs expiredEntry.requestID) expiredEntry ∈
        (Dispatcher.expireStale reaperUUIDs 200 120
          [expiredEntry, freshEntry] [⟨"W1", 4, [], 1⟩]).outbounds ∧
      Pool.get (Dispatcher.expireStale reaperUUIDs 200 120
          [expiredEntry, freshEntry] [⟨"W1", 4, [], 1⟩]).pool ("W1") =
        some ⟨"W1", 4, [], 0⟩ := by
  obtain ⟨-, hpend, hout, -, -, hpool⟩ := expireStale_spec reaperUUIDs 200 0 120
    [expiredEntry, freshEntry] [⟨"W1", 4, [], 1⟩] rfl
  refine ⟨(hpend freshEntry).mpr ⟨by decide, by decide⟩, ?_, ?_⟩
  · exact (hout expiredEntry (by decide) (by decide)).1
  · exact hpool ("W1") ⟨"W1", 4, [], 1⟩ rfl (by decide)

/-- The governance-blocked agent used in C6. -/
def blockedAgent : Agent :=
  ⟨⟨[], 0, [], true⟩, "openai", "prompt", ⟨true, true⟩⟩

/-- The task routed to the blocked agent. -/
def blockedTask : TaskMessage :=
  ⟨"req-9", "agent-9", "owner-9", "hello", "user@aiox.local",
   "agent-9@agents.aiox.local", "Nine"⟩

/-- Counterexample to C6 as stated: on a blocked agent the dispatcher
publishes exactly one outbound, but its body is
"Error: Agent is blocked by governance policy", not
"Agent is blocked by governance policy" — sendErrorResponse prefixes
every message with "Error: ". -/
theorem blocked_agent_body_counterexample :
    (Dispatcher.handleTask blockedTask (.found blockedAgent) [] true 0 ("ob-9")).outbounds =
        [⟨"ob-9", "user@aiox.local", "agent-9@agents.aiox.local",
          "Error: Agent is blocked by governance policy", "req-9"⟩] ∧
      ∀ ob ∈ (Dispatcher.handleTask blockedTask (.found blockedAgent) [] true 0
          ("ob-9")).outbounds,
        ob.body ≠ "Agent is blocked by governance policy" := by
  exact ⟨by decide, by decide⟩

/-- The full outcome of handling a task for a blocked agent. -/
def blockedOutcome (task : TaskMessage) (pool : Pool) (outboundID : String) :
    HandleTaskOutput :=
  { outbounds := [Dispatcher.sendErrorResponse task
      ("Agent is blocked by governance policy") outboundID],
    sent := none, pool := pool, pendingInsert := none, executions := [],
    quotaDeduction := none, action := .ack }

/-- C6 (amended): for a blocked agent the dispatcher publishes exactly one
OutboundMessage, addressed to the original sender with body
"Error: Agent is blocked by governance policy", and Acks the task; no
worker request is sent, no pending entry is created, the pool is
untouched, no execution row is recorded, and no quota is deducted. -/
theorem blocked_agent_outcome (task : TaskMessage) (agent : Agent) (pool : Pool)
    (sendOk : Bool) (now : ℤ) (outboundID : String)
    (h : agent.governance.blocked = true) :
    Dispatcher.handleTask task (.found agent) pool sendOk now outboundID =
      blockedOutcome task pool outboundID := by
  simp only [Dispatcher.handleTask, h, if_true]
  rfl

/-- Witness for C6: the concrete blocked scenario produces exactly the
blocked outcome. -/
theorem blocked_agent_outcome_witness :
    Dispatcher.handleTask blockedTask (.found blockedAgent) [] true 0 ("ob-9") =
      blockedOutcome blockedTask [] ("ob-9") :=
  blocked_agent_outcome blockedTask blockedAgent [] true 0 ("ob-9") rfl

/-- C8: when a worker response matches a pending entry, a completed
response with positive token usage adds exactly `tokens_used` to the
owner's daily tokens and one to the daily requests; a response carrying
an error message (or no positive usage) leaves the quota row unchanged. -/
theorem quota_deduction_spec (pending : List PendingTask) (resp : TaskResponse)
    (pool : Pool) (quota : QuotaRow) (outboundID : String) (now : ℤ)
    (pt : PendingTask)
    (hfind : pending.find? (fun q => q.requestID == resp.requestId) = some pt) :
    (resp.errorMessage = "" → 0 < resp.tokensUsed →
      (Dispatcher.handleResult pending resp pool quota outboundID now).quota =
        { tokensUsedToday := quota.tokensUsedToday + resp.tokensUsed,
          requestsToday := quota.requestsToday + 1 }) ∧
    (resp.errorMessage = "" → resp.tokensUsed ≤ 0 →
      (Dispatcher.handleResult pending resp pool quota outboundID now).quota = quota) ∧
    (resp.errorMessage ≠ "" →
      (Dispatcher.handleResult pending resp pool quota outboundID now).quota = quota) := by
  refine ⟨?_, ?_, ?_⟩
  · intro h1 h2
    simp [Dispatcher.handleResult, hfind, h1, h2, Quota.incrementDaily]
  · intro h1 h2
    have h3 : ¬(0 < resp.tokensUsed) := by omega
    simp [Dispatcher.handleResult, hfind, h1, h3]
  · intro h1
    have h2 : (resp.errorMessage == "") = false := by
      simp [h1]
    simp [Dispatcher.handleResult, hfind, h2]

/-- The pending entry of the quota witness. -/
def resultPending : PendingTask :=
  ⟨"req-8", "agent-8", "owner-8", "user@aiox.local", "agent-8@agents.aiox.local",
   "Eight", "W1", "hi", 0, ⟨false, false⟩⟩

/-- A completed worker response using 3 tokens. -/
def resultResp : TaskResponse :=
  ⟨"req-8", "W1", "all done", 3, 5, "gpt", "", []⟩

/-- Witness for C8: the concrete completed response moves the quota row
from (10 tokens, 2 requests) to (13 tokens, 3 requests). -/
theorem quota_deduction_spec_witness :
    (Dispatcher.handleResult [resultPending] resultResp [] ⟨10, 2⟩ ("ob-8") 7).quota =
      { tokensUsedToday := 13, requestsToday := 3 } :=
  (quota_deduction_spec [resultPending] resultResp [] ⟨10, 2⟩ ("ob-8") 7
    resultPending rfl).1 rfl (by decide)

/-- The pending entry the dispatcher would hold for the routed message
(as built at dispatcher.go lines 240-254 from the consumed TaskMessage,
whose agent fields arrive empty). -/
def c1Pending : PendingTask :=
  ⟨"msg-1", routedRoute.agentID, routedRoute.ownerUserID, "user@aiox.local", "", "",
   "W1", "hi", 0, ⟨false, false⟩⟩

/-- The worker's completed response for the routed message. -/
def c1Resp : TaskResponse :=
  ⟨"msg-1", "W1", "hello there", 3, 5, "gpt", "", []⟩

/-- C1 fails on the code: for a successfully routed inbound message the
orchestrator itself publishes a placeholder OutboundMessage with
`in_reply_to = m.message_id` (router.go lines 257-267), and the
dispatcher publishes the terminal reply as well, so two outbound
messages — not exactly one — carry `in_reply_to = m.message_id`. -/
theorem one_routed_message_two_outbound_replies :
    (Orchestrator.processMessage routedInbound (some routedRoute) ("ob-1") 0).tasks ≠ [] ∧
      ((Orchestrator.processMessage routedInbound (some routedRoute) ("ob-1") 0).outbounds.filter
          (fun ob => ob.inReplyTo == routedInbound.id)).length = 1 ∧
      (((Orchestrator.processMessage routedInbound (some routedRoute) ("ob-1") 0).outbounds ++
          (Dispatcher.handleResult [c1Pending] c1Resp [] ⟨0, 0⟩ ("ob-2") 5).outbounds).filter
          (fun ob => ob.inReplyTo == routedInbound.id)).length = 2 := by
  exact ⟨by decide, by decide, by decide⟩

end Aiox
